import Mathlib

/-!
Verification of the arpwatch-docker metrics exporter
(`src/exporter/metrics_exporter.py`) against its natural-language
specification.  The Python source is shallowly embedded below: lines are
`List Char`, the Prometheus counters are a `Metrics` record, the
`follow` generator is a step function over a schedule of loop
iterations, and `wait_for_log_file` is a fuelled loop (the fuel is
chosen strictly larger than the number of iterations the Python loop
can perform, so the fuelled loop and the unbounded `while` agree).
-/

namespace ArpwatchExporter

/-- Event labels, in the insertion order of the Python dict
`PATTERNS_AND_METRICS` (metrics_exporter.py lines 18-60).  Python 3.7+
dicts preserve insertion order, so iteration order is fixed. -/
inductive EventType where
  | new_station
  | flip_flop
  | changed_ethernet
  | reused_ethernet
  | bogon
  | ethernet_mismatch
  | ethernet_broadcast
  | ip_broadcast
  | new_activity
  | suppressed_decnet
  deriving DecidableEq, Repr

/-- ASCII lower-casing of a line; models `re.IGNORECASE` matching of the
(all lower-case, all ASCII) patterns against the line. -/
def lowerLine (line : List Char) : List Char := line.map Char.toLower

/-- Substring occurrence: `hasSub pat s` holds iff `pat` occurs
contiguously inside `s`.  This is `re.search` of a literal pattern
(every pattern in `PATTERNS_AND_METRICS` except `suppressed_decnet` is a
literal). -/
def hasSub (pat : List Char) : List Char → Bool
  | [] => pat.isEmpty
  | c :: t => pat.isPrefixOf (c :: t) || hasSub pat t

/-- Occurrence of `b` after a gap of non-newline characters: used for the
`.*` part of the `suppressed_decnet` regex (`.` does not match a
newline). -/
def gapSearch (b : List Char) : List Char → Bool
  | [] => b.isEmpty
  | c :: t => b.isPrefixOf (c :: t) || (!(c == '\n') && gapSearch b t)

/-- Search for regex `a.*b`: some suffix starts with `a`, and after it
`b` occurs with only non-newline characters in between. -/
def searchSeq (a b : List Char) : List Char → Bool
  | [] => a.isEmpty && b.isEmpty
  | c :: t => (a.isPrefixOf (c :: t) && gapSearch b ((c :: t).drop a.length)) || searchSeq a b t

/-- The compiled regex of each entry of `PATTERNS_AND_METRICS`
(metrics_exporter.py lines 18-60), applied via `.search` to the
lower-cased line (modelling `re.IGNORECASE`).  Every pattern requires
the literal daemon prefix `arpwatch: `. -/
def patternSearch : EventType → List Char → Bool
  | .new_station, s => hasSub "arpwatch: new station".toList s
  | .flip_flop, s => hasSub "arpwatch: flip flop".toList s
  | .changed_ethernet, s => hasSub "arpwatch: changed ethernet address".toList s
  | .reused_ethernet, s => hasSub "arpwatch: reused old ethernet address".toList s
  | .bogon, s => hasSub "arpwatch: bogon".toList s
  | .ethernet_mismatch, s => hasSub "arpwatch: ethernet mismatch".toList s
  | .ethernet_broadcast, s => hasSub "arpwatch: ethernet broadcast".toList s
  | .ip_broadcast, s => hasSub "arpwatch: ip broadcast".toList s
  | .new_activity, s => hasSub "arpwatch: new activity".toList s
  | .suppressed_decnet, s => searchSeq "arpwatch: suppressed".toList "flip flop".toList s

/-- Iteration order of `PATTERNS_AND_METRICS.items()` in the `__main__`
loop (metrics_exporter.py lines 200-206): the dict's insertion order. -/
def eventOrder : List EventType :=
  [.new_station, .flip_flop, .changed_ethernet, .reused_ethernet, .bogon,
   .ethernet_mismatch, .ethernet_broadcast, .ip_broadcast, .new_activity,
   .suppressed_decnet]

/-- Classification performed by the `for event_type, config in
PATTERNS_AND_METRICS.items()` loop with `break` on the first
`config['pattern'].search(line)` hit (metrics_exporter.py lines
200-206): the first matching label, or `none`. -/
def classify (line : List Char) : Option EventType :=
  eventOrder.find? fun e => patternSearch e (lowerLine line)

/-- Program counters and gauges touched by the pipeline loop
(metrics_exporter.py lines 62-63, 195-206): one monotone counter per
label, the aggregate `total_events` counter, and the
`last_activity_timestamp` gauge (`none` before the first line). -/
structure Metrics where
  counts : EventType → Nat
  total_events : Nat
  last_activity : Option Nat

/-- Counter state at process start: Prometheus counters start at 0, the
gauge is unset. -/
def zeroMetrics : Metrics := ⟨fun _ => 0, 0, none⟩

/-- Increment of one labelled counter (`config['metric'].inc()`). -/
def bump (f : EventType → Nat) (e : EventType) : EventType → Nat :=
  fun x => if x = e then f x + 1 else f x

/-- Body of the `for line in follow(logfile)` loop for one line
(metrics_exporter.py lines 195-206): set `last_activity` to the current
time, then run the first-match pattern loop; on a hit increment that
label's counter and `total_events` once and `break`. -/
def processLine (m : Metrics) (now : Nat) (line : List Char) : Metrics :=
  let m1 : Metrics := { m with last_activity := some now }
  match classify line with
  | some e => { m1 with counts := bump m1.counts e, total_events := m1.total_events + 1 }
  | none => m1

/-- The pipeline loop over a finite sequence of produced lines, each
paired with the wall-clock time at which it is handled. -/
def processLines (m : Metrics) (entries : List (Nat × List Char)) : Metrics :=
  entries.foldl (fun acc en => processLine acc en.1 en.2) m

/-- Condition of the debug log for unrecognized daemon lines
(metrics_exporter.py lines 208-210): `'arpwatch:' in line` is Python's
case-sensitive substring test, and `event_found` is false exactly when
`classify` returned nothing. -/
def logsUnrecognized (line : List Char) : Bool :=
  hasSub "arpwatch:".toList line && !(classify line).isSome

/-- Sum of all per-label counters. -/
def sumCounts (m : Metrics) : Nat :=
  m.counts .new_station + m.counts .flip_flop + m.counts .changed_ethernet +
  m.counts .reused_ethernet + m.counts .bogon + m.counts .ethernet_mismatch +
  m.counts .ethernet_broadcast + m.counts .ip_broadcast + m.counts .new_activity +
  m.counts .suppressed_decnet

/-- Python's whitespace set for `str.strip()` with no argument. -/
def isPySpace (c : Char) : Bool :=
  c == ' ' || c == '\t' || c == '\n' || c == '\r' || c == '\x0b' || c == '\x0c'

/-- Python `line.strip()`: drop whitespace from both ends
(metrics_exporter.py line 96). -/
def pyStrip (s : List Char) : List Char :=
  ((s.dropWhile isPySpace).reverse.dropWhile isPySpace).reverse

/-- Characters up to and including the first newline (or to the end when
no newline follows): the segment `f.readline()` returns. -/
def takeLine : List Char → List Char
  | [] => []
  | c :: t => if c == '\n' then [c] else c :: takeLine t

/-- POSIX `readline` on a regular file whose current content is
`content`, from handle offset `p`: reading at or past end-of-file
returns the empty string; otherwise the chunk up to and including the
next newline.  The handle keeps its byte offset even if the file was
truncated or replaced underneath it. -/
def readlineAt (content : List Char) (p : Nat) : List Char :=
  takeLine (content.drop p)

/-- Outcome of one `f.readline()` call: the file content visible at that
iteration, or an OS/decode exception raised by the read (the file is
opened in text mode, so undecodable bytes raise rather than being
returned). -/
inductive ReadResult where
  | content (c : List Char)
  | ioError (msg : String)
  deriving DecidableEq, Repr

/-- Result of a run of the `follow` generator: the lines it yielded, the
exception it re-raised (if any), and the final handle offset. -/
structure FollowOut where
  lines : List (List Char)
  err : Option String
  finalPos : Nat
  deriving DecidableEq, Repr

/-- The `follow(f)` generator (metrics_exporter.py lines 88-100), run
against a finite schedule: entry `(flag, r)` gives the value of
`shutdown_flag` at the top-of-loop check of one iteration and what that
iteration's `f.readline()` does.  The loop: stop when the flag is set;
on a read exception, log and re-raise (ending the generator); on an
empty read, sleep 0.1s and retry at the same offset; otherwise yield the
stripped chunk and advance the offset by the chunk length. -/
def followRun : List (Bool × ReadResult) → Nat → FollowOut
  | [], p => ⟨[], none, p⟩
  | (flag, r) :: rest, p =>
    if flag then ⟨[], none, p⟩
    else
      match r with
      | .ioError m => ⟨[], some m, p⟩
      | .content c =>
        let chunk := readlineAt c p
        if chunk.isEmpty then followRun rest p
        else
          let o := followRun rest (p + chunk.length)
          ⟨pyStrip chunk :: o.lines, o.err, o.finalPos⟩

/-- Running `follow` on a freshly opened handle: `f.seek(0, 2)` places
the offset at the end of the content present at open time. -/
def followStart (init : List Char) (sched : List (Bool × ReadResult)) : FollowOut :=
  followRun sched init.length

/-- The `while not os.path.exists(filepath) and wait_time < max_wait`
loop of `wait_for_log_file` (metrics_exporter.py lines 103-116), with
fuel.  `existsAt t` is whether the file exists `t` seconds after the
call; each iteration logs, sleeps 2s and adds 2 to `wait_time`.  With
fuel greater than `max_wait / 2 + 1` the fuel never runs out before the
loop's own exit condition. -/
def waitLoop (existsAt : Nat → Bool) (max_wait : Nat) : Nat → Nat → Nat
  | 0, wait_time => wait_time
  | fuel + 1, wait_time =>
    if existsAt wait_time then wait_time
    else if wait_time < max_wait then waitLoop existsAt max_wait fuel (wait_time + 2)
    else wait_time

/-- `wait_for_log_file(filepath, max_wait=60)` (metrics_exporter.py
lines 103-116): poll every 2 seconds until the file exists or
`wait_time` reaches `max_wait`; raise `FileNotFoundError` when the file
still does not exist afterwards. -/
def wait_for_log_file (existsAt : Nat → Bool) (max_wait : Nat := 60) : Except String Nat :=
  let w := waitLoop existsAt max_wait (max_wait + 1) 0
  if existsAt w then Except.ok w
  else Except.error "FileNotFoundError: log file not found after max_wait s"

/-- How the `__main__` block ends (metrics_exporter.py lines 186-221):
normal completion of the pipeline, a `FileNotFoundError` from the
startup wait, or any other exception escaping the loop. -/
inductive RunEnd where
  | completed
  | fileNotFound (msg : String)
  | exn (msg : String)
  deriving DecidableEq, Repr

/-- Composition of the `__main__` try-block: first `wait_for_log_file`,
then the pipeline loop over `follow`; whichever exception escapes
determines the end state. -/
def mainRunEnd (existsAt : Nat → Bool) (init : List Char)
    (sched : List (Bool × ReadResult)) : RunEnd :=
  match wait_for_log_file existsAt with
  | .error m => .fileNotFound m
  | .ok _ =>
    match (followStart init sched).err with
    | some m => .exn m
    | none => .completed

/-- Process exit status from the `except` handlers (metrics_exporter.py
lines 213-219): `FileNotFoundError` and any other `Exception` call
`sys.exit(1)`; falling out of the loop (graceful shutdown) exits 0. -/
def exitCodeOf : RunEnd → Nat
  | .completed => 0
  | .fileNotFound _ => 1
  | .exn _ => 1

/-! Helper lemmas. -/

/-- Boolean prefix test unfolded to an append decomposition. -/
theorem isPrefixOf_eq_true_iff (p : List Char) :
    ∀ s : List Char, p.isPrefixOf s = true ↔ ∃ r, s = p ++ r := by
  induction p with
  | nil => intro s; simp [List.isPrefixOf]
  | cons a p ih =>
    intro s
    cases s with
    | nil => simp [List.isPrefixOf]
    | cons b s =>
      simp only [List.isPrefixOf, Bool.and_eq_true, beq_iff_eq, ih, List.cons_append,
        List.cons.injEq]
      constructor
      · rintro ⟨rfl, r, rfl⟩; exact ⟨r, rfl, rfl⟩
      · rintro ⟨r, rfl, rfl⟩; exact ⟨rfl, r, rfl⟩

/-- The substring test holds exactly when the pattern occurs contiguously
inside the scanned list. -/
theorem hasSub_iff (pat : List Char) :
    ∀ s : List Char, hasSub pat s = true ↔ ∃ l r, s = l ++ pat ++ r := by
  intro s
  induction s with
  | nil =>
    simp only [hasSub, List.isEmpty_iff]
    constructor
    · rintro rfl; exact ⟨[], [], rfl⟩
    · rintro ⟨l, r, h⟩
      rcases List.append_eq_nil.mp h.symm with ⟨h1, h2⟩
      exact (List.append_eq_nil.mp h1).2
  | cons c t ih =>
    simp only [hasSub, Bool.or_eq_true, isPrefixOf_eq_true_iff, ih]
    constructor
    · rintro (⟨r, hr⟩ | ⟨l, r, hlr⟩)
      · exact ⟨[], r, by simpa using hr⟩
      · exact ⟨c :: l, r, by simp [hlr]⟩
    · rintro ⟨l, r, hlr⟩
      cases l with
      | nil => exact Or.inl ⟨r, by simpa using hlr⟩
      | cons x l =>
        right
        refine ⟨l, r, ?_⟩
        simp only [List.cons_append, List.cons.injEq] at hlr
        exact hlr.2

/-- Every label occurs in the evaluation order list. -/
theorem mem_eventOrder (e : EventType) : e ∈ eventOrder := by
  cases e <;> simp [eventOrder]

/-- Classification returns a first-rule hit when the first rule matches. -/
theorem classify_of_new_station (line : List Char)
    (h : patternSearch EventType.new_station (lowerLine line) = true) :
    classify line = some EventType.new_station := by
  simp only [classify, eventOrder]
  have hb : (fun e => patternSearch e (lowerLine line)) EventType.new_station = true := h
  exact List.find?_cons_of_pos _ hb

/-! Claim theorems. -/

/-- Claim C1, counterexample: the line "new station AA" contains the phrase
"new station" (in lower case, as the claim demands), yet the code
classifies it as nothing, because every compiled pattern requires the
daemon prefix "arpwatch: "; consequently the claim's four-line scenario
leaves the new_station counter and total_events at 0, not 2. -/
theorem claim_C1_cex :
    hasSub "new station".toList (lowerLine "new station AA".toList) = true ∧
    classify "new station AA".toList = none ∧
    (processLines zeroMetrics
        [(0, "new station AA".toList), (1, "station activity AA".toList),
         (2, "new station BB".toList), (3, "other: unrelated".toList)]).counts
        EventType.new_station = 0 ∧
    (processLines zeroMetrics
        [(0, "new station AA".toList), (1, "station activity AA".toList),
         (2, "new station BB".toList), (3, "other: unrelated".toList)]).total_events = 0 := by
  decide

/-- Claim C1, amended: every line containing "arpwatch: new station" in any
letter-casing is classified as new_station, and feeding the lines
["arpwatch: new station AA", "station activity AA",
"arpwatch: new station BB", "other: unrelated"] leaves the new_station
counter at 2 and total_events at 2. -/
theorem claim_C1_thm :
    (∀ line : List Char,
      hasSub "arpwatch: new station".toList (lowerLine line) = true →
      classify line = some EventType.new_station) ∧
    (processLines zeroMetrics
        [(0, "arpwatch: new station AA".toList), (1, "station activity AA".toList),
         (2, "arpwatch: new station BB".toList), (3, "other: unrelated".toList)]).counts
        EventType.new_station = 2 ∧
    (processLines zeroMetrics
        [(0, "arpwatch: new station AA".toList), (1, "station activity AA".toList),
         (2, "arpwatch: new station BB".toList), (3, "other: unrelated".toList)]).total_events
      = 2 := by
  refine ⟨fun line h => classify_of_new_station line h, by decide, by decide⟩

/-- Claim C1, witness: a concrete mixed-case line containing
"arpwatch: new station" is classified as new_station. -/
theorem claim_C1_witness :
    classify "ARPWATCH: New Station 0:1:2:3:4:5 eth0".toList = some EventType.new_station :=
  claim_C1_thm.1 _ (by decide)

/-- Claim C3: pattern rules are evaluated in the fixed order of `eventOrder`
and at most one rule fires per line: on any line matching two distinct
rules, exactly one per-label counter is incremented (the first match in
order) and total_events is incremented exactly once. -/
theorem claim_C3_thm (m : Metrics) (now : Nat) (line : List Char) (e₁ e₂ : EventType)
    (hne : e₁ ≠ e₂)
    (h₁ : patternSearch e₁ (lowerLine line) = true)
    (h₂ : patternSearch e₂ (lowerLine line) = true) :
    ∃ e, classify line = some e ∧
      (processLine m now line).counts e = m.counts e + 1 ∧
      (∀ x, x ≠ e → (processLine m now line).counts x = m.counts x) ∧
      (processLine m now line).total_events = m.total_events + 1 := by
  have hsome : (eventOrder.find? fun e => patternSearch e (lowerLine line)).isSome := by
    rw [List.find?_isSome]
    exact ⟨e₁, mem_eventOrder e₁, h₁⟩
  rcases Option.isSome_iff_exists.mp hsome with ⟨e, he⟩
  have hce : classify line = some e := he
  refine ⟨e, hce, ?_, ?_, ?_⟩
  · simp [processLine, hce, bump]
  · intro x hx
    simp [processLine, hce, bump, hx]
  · simp [processLine, hce]

/-- Claim C3, witness: the concrete line
"arpwatch: new station 0 arpwatch: flip flop" matches both the
new_station and the flip_flop rule; processing it increments exactly one
per-label counter and total_events exactly once. -/
theorem claim_C3_witness :
    ∃ e, classify "arpwatch: new station 0 arpwatch: flip flop".toList = some e ∧
      (processLine zeroMetrics 0 "arpwatch: new station 0 arpwatch: flip flop".toList).counts e
        = zeroMetrics.counts e + 1 ∧
      (∀ x, x ≠ e →
        (processLine zeroMetrics 0 "arpwatch: new station 0 arpwatch: flip flop".toList).counts x
          = zeroMetrics.counts x) ∧
      (processLine zeroMetrics 0
          "arpwatch: new station 0 arpwatch: flip flop".toList).total_events
        = zeroMetrics.total_events + 1 :=
  claim_C3_thm zeroMetrics 0 _ EventType.new_station EventType.flip_flop
    (by decide) (by decide) (by decide)

/-- Claim C4: a line matching no configured pattern gets no label, increments
no counter and leaves total_events unchanged; a line that contains the
daemon prefix "arpwatch:" but matches no rule additionally satisfies the
condition of the low-verbosity debug log. -/
theorem claim_C4_thm :
    (∀ (m : Metrics) (now : Nat) (line : List Char), classify line = none →
      (processLine m now line).total_events = m.total_events ∧
      ∀ e, (processLine m now line).counts e = m.counts e) ∧
    (∀ line : List Char, hasSub "arpwatch:".toList line = true → classify line = none →
      logsUnrecognized line = true) := by
  constructor
  · intro m now line h
    constructor
    · simp [processLine, h]
    · intro e; simp [processLine, h]
  · intro line h1 h2
    simp [logsUnrecognized, h2]
    exact h1

/-- Claim C4, witness: "arpwatch: hello world" contains the daemon prefix but
matches no rule; it is not counted and meets the debug-log condition. -/
theorem claim_C4_witness :
    (processLine zeroMetrics 7 "arpwatch: hello world".toList).total_events
      = zeroMetrics.total_events ∧
    logsUnrecognized "arpwatch: hello world".toList = true :=
  ⟨(claim_C4_thm.1 zeroMetrics 7 _ (by decide)).1,
   claim_C4_thm.2 _ (by decide) (by decide)⟩

/-- One pipeline-loop step preserves the counter invariant: every
per-label counter stays below total_events, and total_events stays equal
to the sum of the per-label counters. -/
theorem inv_step (m : Metrics) (now : Nat) (line : List Char)
    (h1 : ∀ e, m.counts e ≤ m.total_events) (h2 : m.total_events = sumCounts m) :
    (∀ e, (processLine m now line).counts e ≤ (processLine m now line).total_events) ∧
    (processLine m now line).total_events = sumCounts (processLine m now line) := by
  cases h : classify line with
  | none =>
    constructor
    · intro e; simpa [processLine, h] using h1 e
    · simpa [processLine, h, sumCounts] using h2
  | some e =>
    constructor
    · intro x
      by_cases hx : x = e
      · subst hx
        simp only [processLine, h, bump, if_pos rfl]
        exact Nat.succ_le_succ (h1 x)
      · simp only [processLine, h, bump, if_neg hx]
        exact (h1 x).trans (Nat.le_succ _)
    · simp only [sumCounts] at h2
      cases e <;> simp [processLine, h, sumCounts, bump] <;> omega

/-- The counter invariant is preserved along any finite run of the
pipeline loop. -/
theorem inv_fold (entries : List (Nat × List Char)) :
    ∀ m : Metrics, (∀ e, m.counts e ≤ m.total_events) → m.total_events = sumCounts m →
    (∀ e, (processLines m entries).counts e ≤ (processLines m entries).total_events) ∧
    (processLines m entries).total_events = sumCounts (processLines m entries) := by
  induction entries with
  | nil => intro m h1 h2; exact ⟨by simpa [processLines] using h1, by simpa [processLines] using h2⟩
  | cons en tl ih =>
    intro m h1 h2
    have step := inv_step m en.1 en.2 h1 h2
    have := ih (processLine m en.1 en.2) step.1 step.2
    simpa [processLines] using this

/-- Claim C5: after processing any sequence of lines from process start, every
per-label counter is at most total_events, and total_events equals the
sum of all per-label counters (all counters start at zero, so this sum
is exactly the number of per-label increments performed). -/
theorem claim_C5_thm (entries : List (Nat × List Char)) :
    (∀ e, (processLines zeroMetrics entries).counts e
        ≤ (processLines zeroMetrics entries).total_events) ∧
    (processLines zeroMetrics entries).total_events
      = sumCounts (processLines zeroMetrics entries) :=
  inv_fold entries zeroMetrics (fun e => Nat.le_refl 0) (by simp [zeroMetrics, sumCounts])

/-- The follower's handle offset never decreases: `follow` contains no
reopen and no seek back, whatever the file does underneath it. -/
theorem followRun_pos_le (sched : List (Bool × ReadResult)) :
    ∀ p : Nat, p ≤ (followRun sched p).finalPos := by
  induction sched with
  | nil => intro p; simp [followRun]
  | cons hd tl ih =>
    intro p
    obtain ⟨flag, r⟩ := hd
    cases flag with
    | true => simp [followRun]
    | false =>
      cases r with
      | ioError m => simp [followRun]
      | content c =>
        by_cases hc : (readlineAt c p).isEmpty
        · simpa [followRun, hc] using ih p
        · simp only [followRun, hc, Bool.false_eq_true, if_false, if_neg]
          exact (Nat.le_add_right _ _).trans (ih _)

/-- Claim C2, code-bug evaluation: `follow` performs no rotation or
truncation detection.  Concretely, open the log when it holds the
11-byte content "0123456789\n" (offset 11 after the seek to
end-of-file); the file is then truncated and rewritten as
"arpwatch: new station x\n".  The next read happens at the stale offset
11, so the follower emits the garbage suffix "ew station x" instead of
the appended line: the appended line is never produced, it is not
classified as new_station (the garbage matches nothing, while the real
line would match), and the follower never resets its offset. -/
theorem claim_C2_thm :
    (followStart "0123456789\n".toList
        [(false, ReadResult.content "arpwatch: new station x\n".toList)]).lines
      = ["ew station x".toList] ∧
    classify "ew station x".toList = none ∧
    classify "arpwatch: new station x".toList = some EventType.new_station ∧
    (∀ (sched : List (Bool × ReadResult)) (p : Nat), p ≤ (followRun sched p).finalPos) :=
  ⟨by decide, by decide, by decide, fun sched p => followRun_pos_le sched p⟩

/-- A readline chunk taken from a nonempty remainder is never empty:
`takeLine` on a cons always returns at least its head character. -/
theorem takeLine_ne_nil (a : Char) (t : List Char) : takeLine (a :: t) ≠ [] := by
  simp only [takeLine]
  split <;> simp

/-- The read returns nothing exactly when the handle offset is at or
past end-of-file: an unterminated partial line (a nonempty remainder
with no newline) is still returned, not waited for. -/
theorem readlineAt_eq_nil_iff (c : List Char) (p : Nat) :
    readlineAt c p = [] ↔ c.length ≤ p := by
  constructor
  · intro h
    cases hd : c.drop p with
    | nil => exact List.drop_eq_nil_iff.mp hd
    | cons a t =>
      rw [readlineAt, hd] at h
      exact absurd h (takeLine_ne_nil a t)
  · intro h
    rw [readlineAt, List.drop_eq_nil_of_le h]
    rfl

/-- Claim C9, counterexample: two clauses of the claim fail on the code.
First, the follower does not merely strip the trailing newline; it
strips leading whitespace as well (`line.strip()`): appending " x\n" to
an initially empty file makes it yield "x", not " x".  Second, it does
not suspend whenever no complete line is available: with the
unterminated partial content "par" (no newline anywhere, so no complete
line exists), `f.readline()` at end-of-file returns the fragment at
once and the follower yields "par" immediately and advances its offset,
instead of sleeping for the poll interval and retrying. -/
theorem claim_C9_cex :
    ((followStart [] [(false, ReadResult.content " x\n".toList)]).lines ≠ [" x".toList] ∧
     (followStart [] [(false, ReadResult.content " x\n".toList)]).lines = ["x".toList]) ∧
    ((followStart [] [(false, ReadResult.content "par".toList)]).lines = ["par".toList] ∧
     (followStart [] [(false, ReadResult.content "par".toList)]).finalPos = 3) := by
  decide

/-- Claim C9, amended: on open the follower seeks to end-of-file and never
replays pre-existing history (over an unchanged file it yields nothing).
It suspends for the fixed poll interval and retries at the same offset
exactly when the read returns nothing, which happens precisely when the
offset is at or past end-of-file; any nonempty chunk — a complete line
or an unterminated partial line at end-of-file — is produced
immediately, stripped of leading and trailing whitespace (which in
particular removes a trailing newline). -/
theorem claim_C9_thm :
    (∀ (init : List Char) (n : Nat),
      (followStart init (List.replicate n (false, ReadResult.content init))).lines = []) ∧
    (∀ (c : List Char) (p : Nat), readlineAt c p = [] ↔ c.length ≤ p) ∧
    (∀ (c : List Char) (rest : List (Bool × ReadResult)) (p : Nat),
      readlineAt c p = [] →
      followRun ((false, ReadResult.content c) :: rest) p = followRun rest p) ∧
    (∀ (c : List Char) (rest : List (Bool × ReadResult)) (p : Nat),
      readlineAt c p ≠ [] →
      (followRun ((false, ReadResult.content c) :: rest) p).lines =
        pyStrip (readlineAt c p) :: (followRun rest (p + (readlineAt c p).length)).lines) ∧
    (∀ init : List Char, (followStart init []).finalPos = init.length) := by
  refine ⟨?_, fun c p => readlineAt_eq_nil_iff c p, ?_, ?_, fun init => rfl⟩
  · intro init n
    have key : ∀ k : Nat,
        (followRun (List.replicate k (false, ReadResult.content init)) init.length).lines
          = [] := by
      intro k
      induction k with
      | zero => simp [followRun]
      | succ j ih =>
        simpa [List.replicate_succ, followRun, readlineAt, List.drop_length, takeLine] using ih
    exact key n
  · intro c rest p h
    simp [followRun, h]
  · intro c rest p h
    have hne : (readlineAt c p).isEmpty = false := by
      cases hc : readlineAt c p with
      | nil => exact absurd hc h
      | cons a t => simp
    simp [followRun, hne]

/-- Claim C9, witness: with content "ab\n" and offset 3 (end of file)
the follower retries without producing anything; with offset 0 it
produces the stripped chunk "ab" and advances past the newline; and
with the unterminated partial content "par" at offset 0 it produces
"par" immediately rather than waiting for a newline. -/
theorem claim_C9_witness :
    followRun [(false, ReadResult.content "ab\n".toList)] 3 = followRun [] 3 ∧
    (followRun [(false, ReadResult.content "ab\n".toList)] 0).lines =
      pyStrip (readlineAt "ab\n".toList 0)
        :: (followRun [] (0 + (readlineAt "ab\n".toList 0).length)).lines ∧
    (followRun [(false, ReadResult.content "par".toList)] 0).lines =
      pyStrip (readlineAt "par".toList 0)
        :: (followRun [] (0 + (readlineAt "par".toList 0).length)).lines :=
  ⟨claim_C9_thm.2.2.1 _ [] 3 (by decide),
   claim_C9_thm.2.2.2.1 _ [] 0 (by decide),
   claim_C9_thm.2.2.2.1 _ [] 0 (by decide)⟩

/-- Once the shutdown flag is observed, the rest of the schedule is
never consumed: appending anything after a flagged iteration does not
change an error-free run. -/
theorem followRun_append_stop (pre : List (Bool × ReadResult)) (r : ReadResult)
    (rest : List (Bool × ReadResult)) :
    ∀ p : Nat, (followRun pre p).err = none →
      followRun (pre ++ (true, r) :: rest) p = followRun pre p := by
  induction pre with
  | nil => intro p _; simp [followRun]
  | cons hd tl ih =>
    intro p h
    obtain ⟨flag, rr⟩ := hd
    cases flag with
    | true => simp [followRun]
    | false =>
      cases rr with
      | ioError m => simp [followRun] at h
      | content c =>
        by_cases hc : (readlineAt c p).isEmpty
        · have h' : (followRun tl p).err = none := by simpa [followRun, hc] using h
          simpa [followRun, hc] using ih p h'
        · have h' : (followRun tl (p + (readlineAt c p).length)).err = none := by
            simpa [followRun, hc] using h
          simp [followRun, hc, ih _ h']

/-- Claim C8: a flagged iteration stops the follower at the top-of-loop check
before any read or sleep; everything scheduled after the flag is
ignored, so the loop exits within one poll interval of the signal; and
an error-free run makes the process exit with status 0 (the only
non-zero exits are the startup FileNotFoundError and a pipeline
exception). -/
theorem claim_C8_thm :
    (∀ (r : ReadResult) (rest : List (Bool × ReadResult)) (p : Nat),
      followRun ((true, r) :: rest) p = ⟨[], none, p⟩) ∧
    (∀ (pre : List (Bool × ReadResult)) (r : ReadResult)
        (rest : List (Bool × ReadResult)) (p : Nat),
      (followRun pre p).err = none →
      followRun (pre ++ (true, r) :: rest) p = followRun pre p) ∧
    (∀ (existsAt : Nat → Bool) (init : List Char) (sched : List (Bool × ReadResult)) (w : Nat),
      wait_for_log_file existsAt = Except.ok w →
      (followStart init sched).err = none →
      exitCodeOf (mainRunEnd existsAt init sched) = 0) ∧
    (∀ u : RunEnd, exitCodeOf u = 0 ↔ u = RunEnd.completed) := by
  refine ⟨fun r rest p => by simp [followRun],
          fun pre r rest p h => followRun_append_stop pre r rest p h,
          ?_, ?_⟩
  · intro existsAt init sched w h1 h2
    simp [mainRunEnd, h1, h2, exitCodeOf]
  · intro u; cases u <;> simp [exitCodeOf]

/-- Claim C8, witness: after one quiet iteration the flag is observed and the
two further scheduled iterations are never consumed; with the log file
present from the start and no pipeline error the exit status is 0. -/
theorem claim_C8_witness :
    followRun ([(false, ReadResult.content "ab\n".toList)] ++
        (true, ReadResult.content "cd\n".toList)
          :: [(false, ReadResult.content "ef\n".toList)]) 0
      = followRun [(false, ReadResult.content "ab\n".toList)] 0 ∧
    exitCodeOf (mainRunEnd (fun _ => true) "ab\n".toList
        [(false, ReadResult.content "ab\n".toList)]) = 0 :=
  ⟨claim_C8_thm.2.1 _ _ _ 0 (by decide),
   claim_C8_thm.2.2.1 (fun _ => true) "ab\n".toList _ 0 rfl (by decide)⟩

/-- Claim C6, counterexample: a transient read error is not retried and does
terminate the process.  With a read error at the first iteration and
perfectly good content scheduled right after it, the follower yields
nothing further (the good iteration is never consumed), re-raises, and
the process exits with status 1 even though startup succeeded. -/
theorem claim_C6_cex :
    followRun [(false, ReadResult.ioError "read hiccup"),
               (false, ReadResult.content "arpwatch: bogon x\n".toList)] 0
      = ⟨[], some "read hiccup", 0⟩ ∧
    exitCodeOf (mainRunEnd (fun _ => true) []
        [(false, ReadResult.ioError "read hiccup"),
         (false, ReadResult.content "arpwatch: bogon x\n".toList)]) = 1 := by
  constructor
  · decide
  · rfl

/-- Claim C6, amended: an exception raised by a read inside the follow loop is
logged and re-raised, ending the generator immediately (no retry, no
raw-bytes fallback: in text mode undecodable input raises); the
top-level handler then exits the process with status 1, so pipeline
errors after startup do terminate the process. -/
theorem claim_C6_thm :
    (∀ (m : String) (rest : List (Bool × ReadResult)) (p : Nat),
      followRun ((false, ReadResult.ioError m) :: rest) p = ⟨[], some m, p⟩) ∧
    (∀ (existsAt : Nat → Bool) (init : List Char) (sched : List (Bool × ReadResult))
        (w : Nat) (m : String),
      wait_for_log_file existsAt = Except.ok w →
      (followStart init sched).err = some m →
      exitCodeOf (mainRunEnd existsAt init sched) = 1) := by
  constructor
  · intro m rest p; simp [followRun]
  · intro existsAt init sched w m h1 h2
    simp [mainRunEnd, h1, h2, exitCodeOf]

/-- Claim C6, witness: one read error with startup fine gives exit status 1. -/
theorem claim_C6_witness :
    exitCodeOf (mainRunEnd (fun _ => true) [] [(false, ReadResult.ioError "boom")]) = 1 :=
  claim_C6_thm.2 (fun _ => true) [] _ 0 "boom" rfl rfl

/-- The wait loop only ever stops at an even elapsed time of at most 60
seconds: `wait_time` starts at 0 and moves in steps of 2 while it is
below `max_wait = 60`. -/
theorem waitLoop_le (existsAt : Nat → Bool) :
    ∀ (fuel t : Nat), t % 2 = 0 → t ≤ 60 →
      (waitLoop existsAt 60 fuel t) % 2 = 0 ∧ waitLoop existsAt 60 fuel t ≤ 60 := by
  intro fuel
  induction fuel with
  | zero => intro t h1 h2; exact ⟨by simpa [waitLoop] using h1, by simpa [waitLoop] using h2⟩
  | succ k ih =>
    intro t h1 h2
    by_cases he : existsAt t = true
    · exact ⟨by simpa [waitLoop, he] using h1, by simpa [waitLoop, he] using h2⟩
    · by_cases hlt : t < 60
      · have := ih (t + 2) (by omega) (by omega)
        exact ⟨by simpa [waitLoop, he, hlt] using this.1, by simpa [waitLoop, he, hlt] using this.2⟩
      · exact ⟨by simpa [waitLoop, he, hlt] using h1, by simpa [waitLoop, he, hlt] using h2⟩

/-- With enough fuel, the wait loop stops at a time where the file
exists, provided the file exists at some polled time (an even time of at
most 60 seconds). -/
theorem waitLoop_finds (existsAt : Nat → Bool) :
    ∀ (fuel t : Nat), t % 2 = 0 → t ≤ 60 → 62 ≤ 2 * fuel + t →
      (∃ u, t ≤ u ∧ u ≤ 60 ∧ u % 2 = 0 ∧ existsAt u = true) →
      existsAt (waitLoop existsAt 60 fuel t) = true := by
  intro fuel
  induction fuel with
  | zero => intro t _ h2 h3 _; omega
  | succ k ih =>
    intro t h1 h2 h3 hu
    obtain ⟨u, hu1, hu2, hu3, hu4⟩ := hu
    by_cases he : existsAt t = true
    · simp [waitLoop, he]
    · have hut : u ≠ t := by
        intro h
        rw [h] at hu4
        exact he hu4
      have hstep : t + 2 ≤ u := by omega
      by_cases hlt : t < 60
      · have := ih (t + 2) (by omega) (by omega) (by omega) ⟨u, hstep, hu2, hu3, hu4⟩
        simpa [waitLoop, he, hlt] using this
      · omega

/-- Claim C7: `wait_for_log_file` defaults to a 60-second bound polled every 2
seconds.  If the file does not exist at any time up to the bound, the
call fails with the FileNotFoundError and the process exits with status
1; if the file exists at some polled time within the bound, the call
succeeds (returning a time at which the file exists, at which the
subsequent `open` succeeds). -/
theorem claim_C7_thm :
    (∀ existsAt : Nat → Bool, wait_for_log_file existsAt = wait_for_log_file existsAt 60) ∧
    (∀ (existsAt : Nat → Bool) (init : List Char) (sched : List (Bool × ReadResult)),
      (∀ t, t ≤ 60 → existsAt t = false) →
      wait_for_log_file existsAt
          = Except.error "FileNotFoundError: log file not found after max_wait s" ∧
        exitCodeOf (mainRunEnd existsAt init sched) = 1) ∧
    (∀ existsAt : Nat → Bool,
      (∃ t, t % 2 = 0 ∧ t ≤ 60 ∧ existsAt t = true) →
      ∃ w, wait_for_log_file existsAt = Except.ok w ∧ existsAt w = true) := by
  refine ⟨fun existsAt => rfl, ?_, ?_⟩
  · intro existsAt init sched h
    have hw := waitLoop_le existsAt 61 0 (by omega) (by omega)
    have hfalse : existsAt (waitLoop existsAt 60 61 0) = false := h _ hw.2
    have herr : wait_for_log_file existsAt
        = Except.error "FileNotFoundError: log file not found after max_wait s" := by
      simp [wait_for_log_file, hfalse]
    exact ⟨herr, by simp [mainRunEnd, herr, exitCodeOf]⟩
  · intro existsAt hex
    obtain ⟨t, ht1, ht2, ht3⟩ := hex
    have htrue : existsAt (waitLoop existsAt 60 61 0) = true :=
      waitLoop_finds existsAt 61 0 (by omega) (by omega) (by omega)
        ⟨t, Nat.zero_le t, ht2, ht1, ht3⟩
    exact ⟨waitLoop existsAt 60 61 0, by simp [wait_for_log_file, htrue], htrue⟩

/-- Claim C7, witness: with a file that never appears the wait fails and the
process exits 1; with a file present from the start the wait succeeds. -/
theorem claim_C7_witness :
    (wait_for_log_file (fun _ => false)
        = Except.error "FileNotFoundError: log file not found after max_wait s" ∧
      exitCodeOf (mainRunEnd (fun _ => false) [] []) = 1) ∧
    (∃ w, wait_for_log_file (fun _ => true) = Except.ok w ∧ (fun _ : Nat => true) w = true) :=
  ⟨claim_C7_thm.2.1 (fun _ => false) [] [] (fun _ _ => rfl),
   claim_C7_thm.2.2 (fun _ => true) ⟨0, rfl, by omega, rfl⟩⟩

/-- Claim C10: for every line handled by the pipeline loop, the last_activity
gauge is set to the current time unconditionally, before the pattern
loop runs; in particular a line matching no pattern changes nothing but
the gauge. -/
theorem claim_C10_thm (m : Metrics) (now : Nat) (line : List Char) :
    (processLine m now line).last_activity = some now ∧
    (classify line = none → processLine m now line = { m with last_activity := some now }) := by
  constructor
  · cases h : classify line <;> simp [processLine, h]
  · intro h; simp [processLine, h]

/-- Claim C10, witness: the non-matching line "station activity" still moves
the last_activity gauge to the current time, and changes nothing else. -/
theorem claim_C10_witness :
    (processLine zeroMetrics 5 "station activity".toList).last_activity = some 5 ∧
    processLine zeroMetrics 5 "station activity".toList
      = { zeroMetrics with last_activity := some 5 } :=
  ⟨(claim_C10_thm zeroMetrics 5 _).1, (claim_C10_thm zeroMetrics 5 _).2 (by decide)⟩

end ArpwatchExporter
